import Mathlib

/-!
Verification development for the thermal receipt printer pipeline
(image rasterization, ESC/POS command encoding, transport, job queue).
Definitions are shallow embeddings of the TypeScript source in
src/server.ts and src/lib/index.ts; byte sequences are lists of
natural numbers, the floating-point dithering working buffer is
modelled with exact rationals, and the asynchronous transport code is
modelled as pure functions over explicit environment oracles.
-/

namespace CursorReceipts

/- ===== Print job queue (src/server.ts: queue, queue.push, setInterval consumer) ===== -/

/-- A print job enqueued by the HTTP layer; for queue-level reasoning the
payload is abstract. -/
def enqueue {α : Type} (q : List α) (j : α) : List α := q ++ [j]

/-- The queue consumer tick: when the queue is non-empty it removes and
returns the head (`queue.shift()` guarded by `queue.length > 0`), otherwise
it returns nothing and leaves the queue unchanged. -/
def drainOne {α : Type} (q : List α) : Option α × List α :=
  match q with
  | [] => (none, [])
  | h :: t => (some h, t)

/- ===== ESC/POS encoder (src/lib/index.ts: ESCPOSEncoder) ===== -/

/-- Encoder state: the ordered list of binary fragments pushed so far. -/
abbrev EncState : Type := List (List ℕ)

/-- ESCPOSEncoder.clear: resets the fragment list. -/
def encClear (_ : EncState) : EncState := []

/-- ESCPOSEncoder.init: pushes ESC @ (0x1B 0x40). -/
def encInit (st : EncState) : EncState := st ++ [[0x1b, 0x40]]

/-- ESCPOSEncoder.text: pushes the raw bytes of the content. -/
def encText (st : EncState) (s : List ℕ) : EncState := st ++ [s]

/-- ESCPOSEncoder.newline: pushes count newline bytes. -/
def encNewline (st : EncState) (count : ℕ) : EncState :=
  st ++ [List.replicate count 10]

/-- ESCPOSEncoder.image: pushes the prebuilt raster fragment verbatim. -/
def encImage (st : EncState) (d : List ℕ) : EncState := st ++ [d]

/-- ESCPOSEncoder.getBuffer: concatenates all fragments in push order. -/
def encGetBuffer (st : EncState) : List ℕ := st.flatten

/-- MessageContent as consumed by MessageFormatter.formatMessage: optional
name, text and image, each modelled as raw byte lists (the image field
holds the undecoded upload bytes). -/
structure MsgContent where
  name : Option (List ℕ)
  text : Option (List ℕ)
  image : Option (List ℕ)

/-- UTF-8 bytes of the placeholder appended when an image is present but no
text is: the bracketed camera-emoji annotation. -/
def photoPlaceholder : List ℕ :=
  [91, 240, 159, 147, 184, 32, 112, 104, 111, 116, 111, 32, 97, 116, 116,
   97, 99, 104, 101, 100, 93]

/-- ASCII bytes of the literal annotation pushed by the formatter when image
processing fails, including the trailing newline. -/
def imageErrorBytes : List ℕ :=
  [91, 73, 109, 97, 103, 101, 32, 69, 114, 114, 111, 114, 93, 10]

/-- MessageFormatter.formatMessage: clears the encoder, initializes, builds
the plain-text message (name then blank line, body text, or the photo
placeholder when an image is present without text), appends six newlines,
then the image block (line feed, raster fragment, line feed) or the image
error annotation when processing fails, and returns the concatenated
buffer together with the final encoder state. Image processing is the
`procImg` parameter returning either the raster fragment bytes or an
error. -/
def formatMessage (procImg : List ℕ → Except Unit (List ℕ))
    (st : EncState) (c : MsgContent) : EncState × List ℕ :=
  let st1 := encClear st
  let st2 := encInit st1
  let message :=
    (match c.name with
     | some n => n ++ [10, 10]
     | none => []) ++
    (match c.text with
     | some t => t
     | none => []) ++
    (if c.image.isSome && c.text.isNone then photoPlaceholder else [])
  let st3 := encText st2 message
  let st4 := encNewline st3 6
  let st5 :=
    match c.image with
    | none => st4
    | some img =>
      match procImg img with
      | Except.ok d => encText (encImage (encText st4 [10]) d) [10]
      | Except.error _ => encText st4 imageErrorBytes
  (st5, encGetBuffer st5)

/- ===== Raster converter: Floyd-Steinberg dithering
   (src/server.ts: processImage step 2; identical loop in processLogo) ===== -/

/-- Quantization of a working-buffer value to pure black (0) or white (255)
at the source threshold 140 (`oldPixel < 140 ? 0 : 255`). -/
def quantize (v : ℚ) : ℚ := if v < 140 then 0 else 255

/-- Overwrite one cell of the flat working buffer (`grayscale[idx] = v`). -/
def setAt (buf : ℕ → ℚ) (i : ℕ) (v : ℚ) : ℕ → ℚ :=
  fun j => if j = i then v else buf j

/-- Accumulate into one cell of the flat working buffer
(`grayscale[i] += d`). -/
def addAt (buf : ℕ → ℚ) (i : ℕ) (d : ℚ) : ℕ → ℚ :=
  fun j => if j = i then buf j + d else buf j

/-- One iteration of the source dithering loop body at pixel (x, y): the
flat buffer is indexed by `idx = y * width + x`; the quantized value
replaces the pixel and the error is spread to `idx + 1`,
`idx + width - 1`, `idx + width` and `idx + width + 1` under the source
bounds guards. -/
def srcStep (width height : ℕ) (p : ℕ × ℕ) (buf : ℕ → ℚ) : ℕ → ℚ :=
  let x := p.1
  let y := p.2
  let idx := y * width + x
  let oldPixel := buf idx
  let newPixel := quantize oldPixel
  let buf1 := setAt buf idx newPixel
  let err := oldPixel - newPixel
  let buf2 := if x + 1 < width then addAt buf1 (idx + 1) (err * (7 / 16)) else buf1
  let buf3 := if 0 < x ∧ y + 1 < height then
      addAt buf2 (idx + width - 1) (err * (3 / 16)) else buf2
  let buf4 := if y + 1 < height then addAt buf3 (idx + width) (err * (5 / 16)) else buf3
  if x + 1 < width ∧ y + 1 < height then
    addAt buf4 (idx + width + 1) (err * (1 / 16)) else buf4

/-- Row-major pixel order of the nested source loops: y ascending
(top-to-bottom), x ascending (left-to-right) within each row. -/
def rowMajor (width height : ℕ) : List (ℕ × ℕ) :=
  (List.range height).flatMap (fun y => (List.range width).map (fun x => (x, y)))

/-- The complete source dithering pass over the flat working buffer. -/
def srcDither (width height : ℕ) (buf : ℕ → ℚ) : ℕ → ℚ :=
  (rowMajor width height).foldl (fun b p => srcStep width height p b) buf

/-- Spec-side formulation of one error-diffusion step, written from the
specification sentence: at pixel (x, y) the quantization error is added to
the in-bounds neighbors right (x+1, y) with 7/16, below-left (x-1, y+1)
with 3/16, below (x, y+1) with 5/16 and below-right (x+1, y+1) with 1/16;
shares addressed outside the image are discarded. Used only for the
refinement comparison against `srcStep`. -/
def specStep (width height : ℕ) (p : ℕ × ℕ) (buf : ℕ × ℕ → ℚ) : ℕ × ℕ → ℚ :=
  let x := p.1
  let y := p.2
  let oldPixel := buf (x, y)
  let newPixel := quantize oldPixel
  let err := oldPixel - newPixel
  let buf1 := fun q => if q = (x, y) then newPixel else buf q
  let buf2 := if x + 1 < width then
      (fun q => if q = (x + 1, y) then buf1 q + err * (7 / 16) else buf1 q) else buf1
  let buf3 := if 0 < x ∧ y + 1 < height then
      (fun q => if q = (x - 1, y + 1) then buf2 q + err * (3 / 16) else buf2 q) else buf2
  let buf4 := if y + 1 < height then
      (fun q => if q = (x, y + 1) then buf3 q + err * (5 / 16) else buf3 q) else buf3
  if x + 1 < width ∧ y + 1 < height then
    (fun q => if q = (x + 1, y + 1) then buf4 q + err * (1 / 16) else buf4 q) else buf4

/-- Spec-side dithering pass: the spec step applied in strict row-major
order. Used only for the refinement comparison against `srcDither`. -/
def specDither (width height : ℕ) (buf : ℕ × ℕ → ℚ) : ℕ × ℕ → ℚ :=
  (rowMajor width height).foldl (fun b p => specStep width height p b) buf

/- ===== Raster converter: bit packing and GS v 0 fragment
   (src/server.ts: processImage step 3 and header;
    src/lib/index.ts: MessageFormatter.convertToBitmap) ===== -/

/-- `Math.ceil(width / 8)`, the row byte-width of the packed bitmap. -/
def bytesPerRow (w : ℕ) : ℕ := (w + 7) / 8

/-- Step 3 of processImage: pack the dithered buffer into a 1-bit-per-pixel
bitmap. A zeroed buffer of bytesPerRow * height bytes is allocated and for
every pixel whose value is below 128 the bit `7 - x % 8` (most significant
bit first) of byte `y * bytesPerRow + x / 8` is set. -/
def packStep (w : ℕ) (g : ℕ → ℚ) (bm : List ℕ) (p : ℕ × ℕ) : List ℕ :=
  if g (p.2 * w + p.1) < 128 then
    let byteIndex := p.2 * bytesPerRow w + p.1 / 8
    let bitIndex := 7 - p.1 % 8
    bm.set byteIndex ((bm.getD byteIndex 0) ||| (1 <<< bitIndex))
  else bm

/-- The packed bitmap produced from a dithered working buffer. -/
def packBitmap (w h : ℕ) (g : ℕ → ℚ) : List ℕ :=
  (rowMajor w h).foldl (packStep w g) (List.replicate (bytesPerRow w * h) 0)

/-- The 8-byte GS v 0 raster header: opcode 0x1D 0x76 0x30, mode byte 0x00
(normal), then `xL = n & 0xff`, `xH = (n >> 8) & 0xff` for the row
byte-width n and likewise `yL`, `yH` for the dot height. -/
def gsv0Header (n h : ℕ) : List ℕ :=
  [0x1D, 0x76, 0x30, 0x00, n % 256, (n / 256) % 256, h % 256, (h / 256) % 256]

/-- The raster fragment returned by processImage from the grayscale working
buffer onward: dither, pack, and concatenate the header directly with the
packed bitmap (`Buffer.concat([header, bitmap])`). The upstream decode,
orientation and grayscale-conversion stages fix w, h and g and do not
affect the fragment layout. -/
def rasterFromGray (w h : ℕ) (g : ℕ → ℚ) : List ℕ :=
  gsv0Header (bytesPerRow w) h ++ packBitmap w h (srcDither w h g)

/- ===== Resample policy (src/server.ts: processImage resize branches) ===== -/

/-- Modelled semantics of the sharp library call
`resize(target, null, withoutEnlargement false, fit inside)` as invoked by
processImage: with only the width given, sharp scales both dimensions by
target / width (enlarging narrower images, since enlargement is not
disabled), so the result width is exactly the target and the height is
scaled proportionally, rounded to nearest. -/
def sharpResizeWidth (target w h : ℕ) : ℕ × ℕ :=
  (target, (h * target + w / 2) / w)

/-- The resize decision of processImage: portrait when the
orientation-corrected height exceeds the width; both branches invoke the
identical sharp resize to the printer dot width 576. -/
def processImageScale (w h : ℕ) : ℕ × ℕ :=
  if h > w then sharpResizeWidth 576 w h else sharpResizeWidth 576 w h

/- ===== USB adapter endpoint negotiation (src/lib/index.ts: USBAdapter.connect) ===== -/

structure USBEndpoint where
  addr : ℕ
  attrs : ℕ
deriving DecidableEq

structure USBIfaceSetting where
  cls : ℕ
  endpoints : List USBEndpoint
deriving DecidableEq

/-- An endpoint is bulk OUT when `(bEndpointAddress & 0x80) === 0` and
`(bmAttributes & 0x03) === 2`. -/
def isBulkOut (ep : USBEndpoint) : Bool :=
  (ep.addr &&& 0x80 == 0) && (ep.attrs &&& 0x03 == 2)

def hasBulkOut (s : USBIfaceSetting) : Bool := s.endpoints.any isBulkOut

/-- The first bulk-OUT endpoint of an interface
(`setting.endpoints.find(...)`). -/
def firstBulkOut (s : USBIfaceSetting) : Option USBEndpoint :=
  s.endpoints.find? isBulkOut

/-- Claim priority: vendor-specific class 255 ranks 1, other classes rank
2, printer class 7 ranks 3 (lower is tried first). -/
def ifacePriority (s : USBIfaceSetting) : ℕ :=
  if s.cls = 255 then 1 else if s.cls ≠ 7 then 2 else 3

/-- The candidate interfaces: exactly those with a bulk-OUT endpoint. -/
def usbCandidates (ifaces : List USBIfaceSetting) : List USBIfaceSetting :=
  ifaces.filter hasBulkOut

/-- Candidates after the stable sort `(a, b) => a.priority - b.priority`:
with three priority values, the stable sort is the concatenation of the
priority classes in ascending order, each keeping enumeration order. -/
def sortedCandidates (ifaces : List USBIfaceSetting) : List USBIfaceSetting :=
  (usbCandidates ifaces).filter (fun s => ifacePriority s == 1) ++
  (usbCandidates ifaces).filter (fun s => ifacePriority s == 2) ++
  (usbCandidates ifaces).filter (fun s => ifacePriority s == 3)

/-- The claim loop: try candidates in order; on claim success resolve the
first bulk-OUT endpoint and stop (if none exists, release and continue);
on claim failure release and continue; none when every candidate is
exhausted. The environment oracle `claimOk` models whether
`interface.claim()` succeeds; releasing has no observable effect in this
model. -/
def tryClaim (claimOk : USBIfaceSetting → Bool) :
    List USBIfaceSetting → Option (USBIfaceSetting × USBEndpoint)
  | [] => none
  | c :: rest =>
    if claimOk c then
      match firstBulkOut c with
      | some ep => some (c, ep)
      | none => tryClaim claimOk rest
    else tryClaim claimOk rest

/-- USBAdapter.connect endpoint negotiation as a pure function. -/
def usbConnect (ifaces : List USBIfaceSetting)
    (claimOk : USBIfaceSetting → Bool) :
    Option (USBIfaceSetting × USBEndpoint) :=
  tryClaim claimOk (sortedCandidates ifaces)

/-- Simulated device of the spec scenario: one printer-class interface and
one vendor-specific interface, each with a bulk-OUT endpoint. -/
def epOut7 : USBEndpoint := ⟨0x01, 2⟩

def epOut255 : USBEndpoint := ⟨0x02, 2⟩

def iface7 : USBIfaceSetting := ⟨7, [epOut7]⟩

def iface255 : USBIfaceSetting := ⟨255, [epOut255]⟩

def exDevice : List USBIfaceSetting := [iface7, iface255]

/- ===== Network adapter write recovery (src/lib/index.ts: NetworkAdapter.write) ===== -/

inductive WOutcome
  | ok
  | resetErr
  | otherErr
deriving DecidableEq

inductive NetResult
  | written
  | connectError
  | writeError
deriving DecidableEq

/-- Environment oracle for one NetworkAdapter.write call: the outcome of a
connect issued before the first attempt, the outcome of the recovery
reconnect, and the socket-level outcomes of the first and the retried
write (resetErr is an EPIPE / ECONNRESET / ENOTCONN class error). -/
structure NetEnv where
  connectOk : Bool
  reconnectOk : Bool
  firstWrite : WOutcome
  retryWrite : WOutcome

/-- The write path once the socket is connected: success or a
non-reset-class failure settle immediately; a reset-class failure performs
exactly one reconnect-and-retry of the write and settles with the retry
outcome. The first component counts socket write attempts. -/
def writeAfterConnect (env : NetEnv) : ℕ × NetResult :=
  match env.firstWrite with
  | WOutcome.ok => (1, NetResult.written)
  | WOutcome.otherErr => (1, NetResult.writeError)
  | WOutcome.resetErr =>
    if env.reconnectOk then
      match env.retryWrite with
      | WOutcome.ok => (2, NetResult.written)
      | _ => (2, NetResult.writeError)
    else (1, NetResult.connectError)

/-- NetworkAdapter.write: when the socket is not connected it connects
first, then performs the write with the recovery behavior above. -/
def networkWrite (connected : Bool) (env : NetEnv) : ℕ × NetResult :=
  if connected then writeAfterConnect env
  else if env.connectOk then writeAfterConnect env
  else (0, NetResult.connectError)

/- ===== Print routine command buffer (src/server.ts: print) ===== -/

def escInit : List ℕ := [0x1b, 0x40]

def leftAlign : List ℕ := [0x1b, 0x61, 0x00]

def centerAlign : List ℕ := [0x1b, 0x61, 0x01]

def boldOn : List ℕ := [0x1b, 0x45, 0x01]

def boldOff : List ℕ := [0x1b, 0x45, 0x00]

def doubleSize : List ℕ := [0x1d, 0x21, 0x11]

def normalSize : List ℕ := [0x1d, 0x21, 0x00]

def fullCut : List ℕ := [0x1b, 0x69]

/-- ESC $ absolute position 320: low byte 64, high byte 1. -/
def logoAbsPos : List ℕ := [0x1b, 0x24, 64, 1]

/-- ASCII bytes of the literal annotation pushed by print when image
processing fails: a newline, the bracketed processing-error text, and a
newline. -/
def printErrAnnotation : List ℕ :=
  [10, 91, 73, 109, 97, 103, 101, 32, 112, 114, 111, 99, 101, 115, 115,
   105, 110, 103, 32, 101, 114, 114, 111, 114, 93, 10]

/-- The styled name region: left align, bold on, double width and height,
the name bytes, normal size, bold off. -/
def nameBlock (n : List ℕ) : List ℕ :=
  leftAlign ++ boldOn ++ doubleSize ++ n ++ normalSize ++ boldOff

/-- A print job as dequeued by the consumer, fields as raw byte lists. -/
structure SJob where
  name : Option (List ℕ)
  text : Option (List ℕ)
  image : Option (List ℕ)

/-- The name-and-logo section of print: with a name, a configured logo and
an image, the name block then the absolute-position logo raster (on logo
failure the pushes made before the exception remain and the catch pushes
the name block again); with a logo and image but no name, the centered
logo; otherwise just the name block when a name exists. -/
def logoSection (procLogo : List ℕ → Except Unit (List ℕ))
    (logo : Option (List ℕ)) (job : SJob) : List ℕ :=
  match job.name, logo, job.image with
  | some n, some lb, some _ =>
    (match procLogo lb with
     | Except.ok ld => nameBlock n ++ logoAbsPos ++ ld ++ leftAlign ++ [10]
     | Except.error _ => nameBlock n ++ logoAbsPos ++ nameBlock n ++ [10])
  | none, some lb, some _ =>
    (match procLogo lb with
     | Except.ok ld => centerAlign ++ ld ++ leftAlign ++ [10]
     | Except.error _ => centerAlign)
  | some n, _, _ => nameBlock n ++ [10]
  | _, _, _ => []

def textSection (job : SJob) : List ℕ :=
  match job.text with
  | some t => t ++ [10]
  | none => []

/-- The image section: centering, then either the raster fragment followed
by an alignment reset and tear-off spacing, or on processing failure the
literal error annotation. -/
def imageSection (procImg : List ℕ → Except Unit (List ℕ)) (job : SJob) :
    List ℕ :=
  match job.image with
  | some im =>
    centerAlign ++
      (match procImg im with
       | Except.ok d => d ++ leftAlign ++ [10, 10, 10]
       | Except.error _ => printErrAnnotation)
  | none => []

/-- The complete command buffer built by print: reset, name/logo section,
text section, image section, trailing feed lines and the full cut. -/
def printBuf (procLogo procImg : List ℕ → Except Unit (List ℕ))
    (logo : Option (List ℕ)) (job : SJob) : List ℕ :=
  escInit ++ logoSection procLogo logo job ++ textSection job ++
    imageSection procImg job ++ [10, 10, 10] ++ fullCut

/-- Image processor that always fails, used for concrete instances. -/
def pfail : List ℕ → Except Unit (List ℕ) := fun _ => Except.error ()

/-- The text-only job of the spec scenario: name Ann, text Hi. -/
def jobAnnHi : SJob := ⟨some [65, 110, 110], some [72, 105], none⟩

/-- Occurrence of a byte pattern as a contiguous run inside a buffer. -/
def SeqIn (pat l : List ℕ) : Prop := ∃ s t, l = s ++ pat ++ t

/-- Executable check for `SeqIn`. -/
def containsSeq (pat l : List ℕ) : Bool :=
  (List.range (l.length + 1)).any (fun i => (l.drop i).take pat.length == pat)

/-- Correspondence between the flat working buffer of the source (indexed
by `y * width + x`) and a two-dimensional buffer indexed by pixel
coordinates, on the in-bounds pixels. -/
def Corr (w h : ℕ) (buf : ℕ → ℚ) (buf2 : ℕ × ℕ → ℚ) : Prop :=
  ∀ x y, x < w → y < h → buf (y * w + x) = buf2 (x, y)

/-- Concrete 2 x 2 grayscale buffer used to exercise the dithering pass. -/
def exGray : ℕ → ℚ := fun i => ([100, 200, 50, 250] : List ℚ).getD i 0

/-- The same concrete buffer addressed by pixel coordinates. -/
def exGray2 : ℕ × ℕ → ℚ := fun p => exGray (p.2 * 2 + p.1)

/-- Concrete all-black grayscale buffer used to exercise the raster
fragment layout. -/
def gZero : ℕ → ℚ := fun _ => 0

/- ===== Theorems ===== -/

/-- Flat row-major indices agree exactly when the coordinates agree, for
in-row x offsets. -/
theorem flatIdx_eq_iff {w x x' y y' : ℕ} (hx : x < w) (hx' : x' < w) :
    y * w + x = y' * w + x' ↔ x = x' ∧ y = y' := by
  constructor
  · intro hEq
    have hw : 0 < w := Nat.lt_of_le_of_lt (Nat.zero_le x) hx
    have hx1 : (y * w + x) % w = x := by
      rw [Nat.add_comm, Nat.add_mul_mod_self_right]
      exact Nat.mod_eq_of_lt hx
    have hx2 : (y' * w + x') % w = x' := by
      rw [Nat.add_comm, Nat.add_mul_mod_self_right]
      exact Nat.mod_eq_of_lt hx'
    have hxx : x = x' := by rw [← hx1, ← hx2, hEq]
    subst hxx
    have hmul : y * w = y' * w := Nat.add_right_cancel hEq
    exact ⟨rfl, Nat.eq_of_mul_eq_mul_right hw hmul⟩
  · rintro ⟨rfl, rfl⟩
    rfl

theorem corr_setAt {w h : ℕ} {buf : ℕ → ℚ} {buf2 : ℕ × ℕ → ℚ}
    (hc : Corr w h buf buf2) {x0 y0 : ℕ} (hx0 : x0 < w) (hy0 : y0 < h)
    (v : ℚ) :
    Corr w h (setAt buf (y0 * w + x0) v)
      (fun q => if q = (x0, y0) then v else buf2 q) := by
  intro x y hx hy
  simp only [setAt]
  by_cases hq : y * w + x = y0 * w + x0
  · obtain ⟨hxx, hyy⟩ := (flatIdx_eq_iff hx hx0).1 hq
    subst hxx; subst hyy
    simp
  · have hne : ¬((x, y) = (x0, y0)) := by
      intro hp
      rw [Prod.mk.injEq] at hp
      exact hq ((flatIdx_eq_iff hx hx0).2 ⟨hp.1, hp.2⟩)
    rw [if_neg hq, if_neg hne]
    exact hc x y hx hy

theorem corr_addAt {w h : ℕ} {buf : ℕ → ℚ} {buf2 : ℕ × ℕ → ℚ}
    (hc : Corr w h buf buf2) {x0 y0 : ℕ} (hx0 : x0 < w) (hy0 : y0 < h)
    (d : ℚ) :
    Corr w h (addAt buf (y0 * w + x0) d)
      (fun q => if q = (x0, y0) then buf2 q + d else buf2 q) := by
  intro x y hx hy
  simp only [addAt]
  by_cases hq : y * w + x = y0 * w + x0
  · obtain ⟨hxx, hyy⟩ := (flatIdx_eq_iff hx hx0).1 hq
    subst hxx; subst hyy
    simp [hc x y hx hy]
  · have hne : ¬((x, y) = (x0, y0)) := by
      intro hp
      rw [Prod.mk.injEq] at hp
      exact hq ((flatIdx_eq_iff hx hx0).2 ⟨hp.1, hp.2⟩)
    rw [if_neg hq, if_neg hne]
    exact hc x y hx hy

theorem corr_guardAdd {w h : ℕ} {bufA : ℕ → ℚ} {specA : ℕ × ℕ → ℚ}
    (c : Prop) [Decidable c] (hA : Corr w h bufA specA)
    (i x0 y0 : ℕ) (d : ℚ)
    (hin : c → x0 < w ∧ y0 < h ∧ i = y0 * w + x0) :
    Corr w h (if c then addAt bufA i d else bufA)
      (if c then (fun q => if q = (x0, y0) then specA q + d else specA q)
       else specA) := by
  by_cases hcond : c
  · rw [if_pos hcond, if_pos hcond]
    obtain ⟨hx0, hy0, rfl⟩ := hin hcond
    exact corr_addAt hA hx0 hy0 d
  · rw [if_neg hcond, if_neg hcond]
    exact hA

theorem idxBL {w x y : ℕ} (hx : 0 < x) :
    y * w + x + w - 1 = (y + 1) * w + (x - 1) := by
  cases x with
  | zero => exact absurd hx (lt_irrefl 0)
  | succ x' =>
    rw [Nat.succ_mul]
    generalize y * w = m
    omega

theorem idxB (w x y : ℕ) : y * w + x + w = (y + 1) * w + x := by
  rw [Nat.succ_mul]
  generalize y * w = m
  omega

theorem idxBR (w x y : ℕ) : y * w + x + w + 1 = (y + 1) * w + (x + 1) := by
  rw [Nat.succ_mul]
  generalize y * w = m
  omega

/-- One source dithering step refines one spec dithering step under the
flat/coordinate correspondence. -/
theorem corr_srcStep {w h : ℕ} {buf : ℕ → ℚ} {buf2 : ℕ × ℕ → ℚ}
    (hc : Corr w h buf buf2) (x y : ℕ) (hx : x < w) (hy : y < h) :
    Corr w h (srcStep w h (x, y) buf) (specStep w h (x, y) buf2) := by
  have hold : buf (y * w + x) = buf2 (x, y) := hc x y hx hy
  simp only [srcStep, specStep, hold]
  have s1 := corr_setAt hc hx hy (quantize (buf2 (x, y)))
  have s2 := corr_guardAdd (x + 1 < w) s1 (y * w + x + 1) (x + 1) y
    ((buf2 (x, y) - quantize (buf2 (x, y))) * (7 / 16))
    (fun hR => ⟨hR, hy, rfl⟩)
  have s3 := corr_guardAdd (0 < x ∧ y + 1 < h) s2 (y * w + x + w - 1)
    (x - 1) (y + 1) ((buf2 (x, y) - quantize (buf2 (x, y))) * (3 / 16))
    (fun hBL => ⟨by omega, hBL.2, idxBL hBL.1⟩)
  have s4 := corr_guardAdd (y + 1 < h) s3 (y * w + x + w) x (y + 1)
    ((buf2 (x, y) - quantize (buf2 (x, y))) * (5 / 16))
    (fun hB => ⟨hx, hB, idxB w x y⟩)
  exact corr_guardAdd (x + 1 < w ∧ y + 1 < h) s4 (y * w + x + w + 1)
    (x + 1) (y + 1) ((buf2 (x, y) - quantize (buf2 (x, y))) * (1 / 16))
    (fun hBR => ⟨hBR.1, hBR.2, idxBR w x y⟩)

theorem corr_fold {w h : ℕ} :
    ∀ (ps : List (ℕ × ℕ)) {buf : ℕ → ℚ} {buf2 : ℕ × ℕ → ℚ},
      (∀ p ∈ ps, p.1 < w ∧ p.2 < h) → Corr w h buf buf2 →
      Corr w h (ps.foldl (fun b p => srcStep w h p b) buf)
        (ps.foldl (fun b p => specStep w h p b) buf2) := by
  intro ps
  induction ps with
  | nil => intro buf buf2 _ hc; exact hc
  | cons p ps ih =>
    intro buf buf2 hmem hc
    rw [List.foldl_cons, List.foldl_cons]
    obtain ⟨x, y⟩ := p
    have hp := hmem (x, y) (List.mem_cons_self _ _)
    exact ih (fun q hq => hmem q (List.mem_cons_of_mem _ hq))
      (corr_srcStep hc x y hp.1 hp.2)

theorem mem_rowMajor {w h : ℕ} : ∀ p ∈ rowMajor w h, p.1 < w ∧ p.2 < h := by
  intro p hp
  simp only [rowMajor, List.mem_flatMap, List.mem_map, List.mem_range] at hp
  obtain ⟨y, hy, x, hx, rfl⟩ := hp
  exact ⟨hx, hy⟩

/-- C1: the error-diffusion pass of processImage visits pixels in strict
row-major order and, at every pixel, quantizes to 0 or 255 and adds the
quantization error in the rational working buffer to exactly the in-bounds
neighbors right (7/16), below-left (3/16), below (5/16) and below-right
(1/16), discarding out-of-bounds shares: the flat-index source pass agrees
with the coordinate-level specification pass on every in-bounds pixel. -/
theorem c1_dither_refines_spec :
    ∀ (width height : ℕ) (buf : ℕ → ℚ) (buf2 : ℕ × ℕ → ℚ),
      Corr width height buf buf2 →
      (∀ v : ℚ, quantize v = 0 ∨ quantize v = 255) ∧
      Corr width height (srcDither width height buf)
        (specDither width height buf2) := by
  intro w h buf buf2 hc
  constructor
  · intro v
    by_cases hv : v < 140 <;> simp [quantize, hv]
  · exact corr_fold (rowMajor w h) mem_rowMajor hc

/-- C1 witness: on a concrete 2 x 2 buffer the source pass and the spec
pass agree at pixel (0, 1). -/
theorem c1_dither_refines_spec_witness :
    srcDither 2 2 exGray (1 * 2 + 0) = specDither 2 2 exGray2 (0, 1) :=
  (c1_dither_refines_spec 2 2 exGray exGray2 (fun _ _ _ _ => rfl)).2
    0 1 (by decide) (by decide)

theorem packStep_length (w : ℕ) (g : ℕ → ℚ) (bm : List ℕ) (p : ℕ × ℕ) :
    (packStep w g bm p).length = bm.length := by
  unfold packStep
  split
  · simp
  · rfl

theorem packFold_length (w : ℕ) (g : ℕ → ℚ) :
    ∀ (ps : List (ℕ × ℕ)) (bm : List ℕ),
      (ps.foldl (packStep w g) bm).length = bm.length := by
  intro ps
  induction ps with
  | nil => intro bm; rfl
  | cons p ps ih =>
    intro bm
    rw [List.foldl_cons, ih, packStep_length]

/-- C3: the packed bitmap produced by the rasterizer has length exactly
ceil(width / 8) * height bytes; bytesPerRow is the ceiling of width / 8,
and the full GS v 0 fragment adds exactly the 8 header bytes on top. -/
theorem c3_pack_length :
    ∀ (w h : ℕ) (g : ℕ → ℚ),
      (packBitmap w h g).length = bytesPerRow w * h ∧
      (rasterFromGray w h g).length = 8 + bytesPerRow w * h ∧
      w ≤ 8 * bytesPerRow w ∧ 8 * bytesPerRow w < w + 8 := by
  intro w h g
  have hpack : ∀ g' : ℕ → ℚ, (packBitmap w h g').length = bytesPerRow w * h := by
    intro g'
    unfold packBitmap
    rw [packFold_length, List.length_replicate]
  refine ⟨hpack g, ?_, ?_, ?_⟩
  · unfold rasterFromGray
    rw [List.length_append, hpack]
    rfl
  · unfold bytesPerRow; omega
  · unfold bytesPerRow; omega

/-- C2: the raster fragment is byte-for-byte the 8-byte header -- opcode
0x1D 0x76 0x30, mode byte 0x00, row byte-width as two bytes LSB first,
dot height as two bytes LSB first -- followed immediately by the packed
bitmap bytes, with nothing in between. -/
theorem c2_raster_fragment :
    ∀ (w h : ℕ) (g : ℕ → ℚ), h < 65536 → bytesPerRow w < 65536 →
      (rasterFromGray w h g).take 8 = gsv0Header (bytesPerRow w) h ∧
      (rasterFromGray w h g).drop 8 = packBitmap w h (srcDither w h g) ∧
      (gsv0Header (bytesPerRow w) h).length = 8 ∧
      (rasterFromGray w h g).getD 0 0 = 0x1D ∧
      (rasterFromGray w h g).getD 1 0 = 0x76 ∧
      (rasterFromGray w h g).getD 2 0 = 0x30 ∧
      (rasterFromGray w h g).getD 3 0 = 0x00 ∧
      (rasterFromGray w h g).getD 4 0 + 256 * (rasterFromGray w h g).getD 5 0 =
        bytesPerRow w ∧
      (rasterFromGray w h g).getD 6 0 + 256 * (rasterFromGray w h g).getD 7 0 =
        h := by
  intro w h g hh hn
  unfold rasterFromGray gsv0Header
  refine ⟨rfl, rfl, rfl, rfl, rfl, rfl, rfl, ?_, ?_⟩
  · show bytesPerRow w % 256 + 256 * (bytesPerRow w / 256 % 256) = bytesPerRow w
    omega
  · show h % 256 + 256 * (h / 256 % 256) = h
    omega

/-- C2 witness: the fragment layout at a concrete 4 x 1 all-black buffer. -/
theorem c2_raster_fragment_witness :
    (1 : ℕ) < 65536 ∧ bytesPerRow 4 < 65536 ∧
    ((rasterFromGray 4 1 gZero).take 8 = gsv0Header (bytesPerRow 4) 1 ∧
     (rasterFromGray 4 1 gZero).drop 8 = packBitmap 4 1 (srcDither 4 1 gZero) ∧
     (gsv0Header (bytesPerRow 4) 1).length = 8 ∧
     (rasterFromGray 4 1 gZero).getD 0 0 = 0x1D ∧
     (rasterFromGray 4 1 gZero).getD 1 0 = 0x76 ∧
     (rasterFromGray 4 1 gZero).getD 2 0 = 0x30 ∧
     (rasterFromGray 4 1 gZero).getD 3 0 = 0x00 ∧
     (rasterFromGray 4 1 gZero).getD 4 0 +
       256 * (rasterFromGray 4 1 gZero).getD 5 0 = bytesPerRow 4 ∧
     (rasterFromGray 4 1 gZero).getD 6 0 +
       256 * (rasterFromGray 4 1 gZero).getD 7 0 = 1) :=
  ⟨by decide, by decide, c2_raster_fragment 4 1 gZero (by decide) (by decide)⟩

/-- C9: the print job queue is strictly FIFO: enqueue appends at the tail,
drainOne on a non-empty queue removes and returns the head, drainOne on an
empty queue returns nothing and leaves the queue unchanged, enqueuing at
the tail never changes which job is at the head of a non-empty queue, and
enqueuing A, B, C into an empty queue and draining three times yields A,
then B, then C, leaving the queue empty. -/
theorem c9_queue_fifo {α : Type} :
    (∀ (q : List α) (j : α), enqueue q j = q ++ [j]) ∧
    (∀ (h : α) (t : List α), drainOne (h :: t) = (some h, t)) ∧
    (drainOne ([] : List α) = (none, [])) ∧
    (∀ (q : List α) (j : α), q ≠ [] →
      (drainOne (enqueue q j)).1 = (drainOne q).1) ∧
    (∀ a b c : α,
      let q3 := enqueue (enqueue (enqueue [] a) b) c
      let d1 := drainOne q3
      let d2 := drainOne d1.2
      let d3 := drainOne d2.2
      d1.1 = some a ∧ d2.1 = some b ∧ d3.1 = some c ∧ d3.2 = []) := by
  refine ⟨fun q j => rfl, fun h t => rfl, rfl, ?_, ?_⟩
  · intro q j hq
    cases q with
    | nil => exact absurd rfl hq
    | cons h t => rfl
  · intro a b c
    exact ⟨rfl, rfl, rfl, rfl⟩

/-- C9 witness: draining A, B, C from a concretely enqueued queue of
naturals yields them in submission order. -/
theorem c9_queue_fifo_witness :
    (1 :: [2, 3] : List ℕ) ≠ [] ∧
    (drainOne (enqueue [1, 2, 3] 4)).1 = (drainOne [1, 2, 3]).1 := by
  exact ⟨by decide, (c9_queue_fifo (α := ℕ)).2.2.2.1 [1, 2, 3] 4 (by decide)⟩

/-- C10: MessageFormatter.formatMessage clears the encoder fragment list
before building, so the produced buffer is a function of the content (and
the deterministic image processor) alone: two calls with equal content on
arbitrary prior encoder states yield byte-identical buffers. -/
theorem c10_formatMessage_state_independent :
    ∀ (procImg : List ℕ → Except Unit (List ℕ))
      (st1 st2 : EncState) (c : MsgContent),
      (formatMessage procImg st1 c).2 = (formatMessage procImg st2 c).2 := by
  intro procImg st1 st2 c
  rfl

/-- C4 counterexample: the landscape image 100 x 50 already fits within
the target width (100 <= 576), yet the resample step scales it up to
width 576, so a landscape image is upsampled beyond what fitting within
the target width requires, contrary to the claim as stated. -/
theorem c4_counterexample :
    50 ≤ 100 ∧ 100 ≤ 576 ∧ (processImageScale 100 50).1 = 576 ∧
    ¬(processImageScale 100 50).1 ≤ 100 := by
  decide

/-- C4 (amended): after the resample step every image with nonzero width,
portrait or landscape, is scaled aspect-preserving to exactly the target
dot width 576 (landscape images narrower than the target are upsampled to
it as well), so the final width never exceeds the target dot width. -/
theorem c4_scale_to_target :
    ∀ w h : ℕ, 0 < w →
      (processImageScale w h).1 = 576 ∧ (processImageScale w h).1 ≤ 576 := by
  intro w h hw
  unfold processImageScale sharpResizeWidth
  split <;> exact ⟨rfl, by omega⟩

/-- C4 witness: the amended statement at the concrete 100 x 50 image. -/
theorem c4_scale_to_target_witness :
    0 < 100 ∧ ((processImageScale 100 50).1 = 576 ∧
      (processImageScale 100 50).1 ≤ 576) :=
  ⟨by decide, c4_scale_to_target 100 50 (by decide)⟩

/-- C7: a network write issued while disconnected first connects (no write
attempt happens when that connect fails, and with a successful connect the
behavior equals the connected case); a first write failing with a
reset-class error triggers exactly one reconnect-and-retry, surfacing
failure only on the second consecutive failure; a write is never attempted
more than twice. -/
theorem c7_network_write_retry :
    ∀ (connected : Bool) (env : NetEnv),
      (networkWrite connected env).1 ≤ 2 ∧
      (connected = false → env.connectOk = false →
        networkWrite connected env = (0, NetResult.connectError)) ∧
      (connected = false → env.connectOk = true →
        networkWrite false env = networkWrite true env) ∧
      (env.firstWrite = WOutcome.ok →
        networkWrite true env = (1, NetResult.written)) ∧
      (env.firstWrite = WOutcome.resetErr → env.reconnectOk = true →
        env.retryWrite = WOutcome.ok →
        networkWrite true env = (2, NetResult.written)) ∧
      (env.firstWrite = WOutcome.resetErr → env.reconnectOk = true →
        env.retryWrite ≠ WOutcome.ok →
        networkWrite true env = (2, NetResult.writeError)) ∧
      (env.firstWrite = WOutcome.otherErr →
        networkWrite true env = (1, NetResult.writeError)) := by
  intro connected env
  obtain ⟨c1, c2, w1, w2⟩ := env
  cases connected <;> cases c1 <;> cases c2 <;> cases w1 <;> cases w2 <;>
    simp [networkWrite, writeAfterConnect]

/-- C7 witness: a reset-class first failure followed by a successful retry
on a concrete environment succeeds with exactly two write attempts. -/
theorem c7_network_write_retry_witness :
    networkWrite true ⟨true, true, WOutcome.resetErr, WOutcome.ok⟩ =
      (2, NetResult.written) :=
  (c7_network_write_retry true ⟨true, true, WOutcome.resetErr, WOutcome.ok⟩).2.2.2.2.1
    rfl rfl rfl

theorem seqIn_iff (pat l : List ℕ) : SeqIn pat l ↔ containsSeq pat l = true := by
  constructor
  · rintro ⟨s, t, rfl⟩
    rw [containsSeq, List.any_eq_true]
    refine ⟨s.length, ?_, ?_⟩
    · rw [List.mem_range, List.length_append, List.length_append]
      omega
    · rw [List.append_assoc, List.drop_left, List.take_left, beq_iff_eq]
  · intro hc
    rw [containsSeq, List.any_eq_true] at hc
    obtain ⟨i, _, hbeq⟩ := hc
    rw [beq_iff_eq] at hbeq
    refine ⟨l.take i, (l.drop i).drop pat.length, ?_⟩
    conv_lhs => rw [← List.take_append_drop i l]
    rw [List.append_assoc]
    congr 1
    conv_lhs => rw [← List.take_append_drop pat.length (l.drop i)]
    rw [hbeq]

theorem seqIn_append_left (pat a b : List ℕ) (h : SeqIn pat a) :
    SeqIn pat (a ++ b) := by
  obtain ⟨s, t, rfl⟩ := h
  exact ⟨s, t ++ b, by simp⟩

theorem seqIn_append_right (pat a b : List ℕ) (h : SeqIn pat b) :
    SeqIn pat (a ++ b) := by
  obtain ⟨s, t, rfl⟩ := h
  exact ⟨a ++ s, t, by simp⟩

theorem seqIn_nameBlock (n : List ℕ) : SeqIn n (nameBlock n) :=
  ⟨leftAlign ++ boldOn ++ doubleSize, normalSize ++ boldOff,
    by simp [nameBlock]⟩

theorem seqIn_logoSection_name (procLogo : List ℕ → Except Unit (List ℕ))
    (logo : Option (List ℕ)) (im n : List ℕ) (txt : Option (List ℕ)) :
    SeqIn n (logoSection procLogo logo ⟨some n, txt, some im⟩) := by
  cases logo with
  | none => exact seqIn_append_left _ _ _ (seqIn_nameBlock n)
  | some lb =>
    cases hpl : procLogo lb with
    | ok ld =>
      simp only [logoSection, hpl]
      exact seqIn_append_left _ _ _ (seqIn_append_left _ _ _
        (seqIn_append_left _ _ _ (seqIn_append_left _ _ _
          (seqIn_nameBlock n))))
    | error e =>
      simp only [logoSection, hpl]
      exact seqIn_append_left _ _ _
        (seqIn_append_right _ _ _ (seqIn_nameBlock n))

/-- C5 counterexample: for the text-only job with name Ann and text Hi the
built command buffer contains no center-alignment fragment at all, so the
name is not inside a centered styled region as the claim states (the
source uses left alignment for the name block). -/
theorem c5_counterexample :
    ¬SeqIn centerAlign (printBuf pfail pfail none jobAnnHi) := by
  rw [seqIn_iff]
  decide

/-- C5 (amended): for a text-only job with a name and text present the
command buffer is exactly the reset fragment, then the name inside a bold,
double-size, left-aligned styled region followed by a newline, then the
text with a newline in a non-bold region, then the trailing feed lines and
the full-cut fragment, in that order. -/
theorem c5_text_job_layout :
    ∀ (procLogo procImg : List ℕ → Except Unit (List ℕ))
      (logo : Option (List ℕ)) (n t : List ℕ),
      printBuf procLogo procImg logo ⟨some n, some t, none⟩ =
        escInit ++ (nameBlock n ++ [10]) ++ (t ++ [10]) ++
          ([10, 10, 10] ++ fullCut) := by
  intro pl pi logo n t
  cases logo <;>
    simp [printBuf, logoSection, textSection, imageSection, nameBlock]

/-- C8: for any job carrying a name, text and an image whose processing
fails, the print routine still builds a non-empty command buffer that
contains the name bytes and the text bytes unchanged and carries the
literal error annotation in the slot of the image fragment (directly after
the centering command that preceded the failed rasterization); the failure
is absorbed inside the job and printBuf is total. -/
theorem c8_image_failure_degrades :
    ∀ (procLogo procImg : List ℕ → Except Unit (List ℕ))
      (logo : Option (List ℕ)) (n t im : List ℕ),
      procImg im = Except.error () →
      printBuf procLogo procImg logo ⟨some n, some t, some im⟩ ≠ [] ∧
      SeqIn n (printBuf procLogo procImg logo ⟨some n, some t, some im⟩) ∧
      SeqIn t (printBuf procLogo procImg logo ⟨some n, some t, some im⟩) ∧
      SeqIn printErrAnnotation
        (printBuf procLogo procImg logo ⟨some n, some t, some im⟩) ∧
      SeqIn (centerAlign ++ printErrAnnotation)
        (printBuf procLogo procImg logo ⟨some n, some t, some im⟩) := by
  intro pl pi logo n t im hpi
  have himg : imageSection pi ⟨some n, some t, some im⟩ =
      centerAlign ++ printErrAnnotation := by
    simp [imageSection, hpi]
  refine ⟨?_, ?_, ?_, ?_, ?_⟩
  · simp [printBuf, escInit]
  · exact seqIn_append_left _ _ _ (seqIn_append_left _ _ _
      (seqIn_append_left _ _ _ (seqIn_append_left _ _ _
        (seqIn_append_right _ _ _
          (seqIn_logoSection_name pl logo im n (some t))))))
  · refine seqIn_append_left _ _ _ (seqIn_append_left _ _ _
      (seqIn_append_left _ _ _ (seqIn_append_right _ _ _ ?_)))
    exact ⟨[], [10], by simp [textSection]⟩
  · refine seqIn_append_left _ _ _ (seqIn_append_left _ _ _
      (seqIn_append_right _ _ _ ?_))
    exact ⟨centerAlign, [], by simp [himg]⟩
  · refine seqIn_append_left _ _ _ (seqIn_append_left _ _ _
      (seqIn_append_right _ _ _ ?_))
    exact ⟨[], [], by simp [himg]⟩

/-- C8 witness: the degraded buffer at a concrete failing job. -/
theorem c8_image_failure_degrades_witness :
    printBuf pfail pfail none ⟨some [65], some [66], some [1]⟩ ≠ [] ∧
    SeqIn [65] (printBuf pfail pfail none ⟨some [65], some [66], some [1]⟩) ∧
    SeqIn [66] (printBuf pfail pfail none ⟨some [65], some [66], some [1]⟩) ∧
    SeqIn printErrAnnotation
      (printBuf pfail pfail none ⟨some [65], some [66], some [1]⟩) ∧
    SeqIn (centerAlign ++ printErrAnnotation)
      (printBuf pfail pfail none ⟨some [65], some [66], some [1]⟩) :=
  c8_image_failure_degrades pfail pfail none [65] [66] [1] rfl

theorem mem_sortedCandidates {ifaces : List USBIfaceSetting}
    {s : USBIfaceSetting} :
    s ∈ sortedCandidates ifaces ↔ s ∈ ifaces ∧ hasBulkOut s = true := by
  have htri : ifacePriority s = 1 ∨ ifacePriority s = 2 ∨ ifacePriority s = 3 := by
    unfold ifacePriority
    split_ifs <;> simp
  simp only [sortedCandidates, usbCandidates, List.mem_append,
    List.mem_filter, beq_iff_eq]
  constructor
  · rintro ((⟨⟨hm, hb⟩, _⟩ | ⟨⟨hm, hb⟩, _⟩) | ⟨⟨hm, hb⟩, _⟩) <;> exact ⟨hm, hb⟩
  · rintro ⟨hm, hb⟩
    rcases htri with h1 | h2 | h3
    · exact Or.inl (Or.inl ⟨⟨hm, hb⟩, h1⟩)
    · exact Or.inl (Or.inr ⟨⟨hm, hb⟩, h2⟩)
    · exact Or.inr ⟨⟨hm, hb⟩, h3⟩

theorem pairwise_filter_priority (l : List USBIfaceSetting) (k : ℕ) :
    (l.filter (fun s => ifacePriority s == k)).Pairwise
      (fun a b => ifacePriority a ≤ ifacePriority b) := by
  induction l with
  | nil => exact List.Pairwise.nil
  | cons s l ih =>
    by_cases hs : ifacePriority s = k
    · rw [List.filter_cons_of_pos (by simp [hs])]
      refine List.Pairwise.cons ?_ ih
      intro b hb
      have hb' : ifacePriority b = k := by
        have hmem := List.mem_filter.1 hb
        simpa using hmem.2
      rw [hs, hb']
    · rw [List.filter_cons_of_neg (by simp [hs])]
      exact ih

theorem mem_filter_priority {l : List USBIfaceSetting} {k : ℕ}
    {s : USBIfaceSetting}
    (h : s ∈ l.filter (fun x => ifacePriority x == k)) :
    ifacePriority s = k := by
  have hmem := List.mem_filter.1 h
  simpa using hmem.2

theorem sortedCandidates_pairwise (ifaces : List USBIfaceSetting) :
    (sortedCandidates ifaces).Pairwise
      (fun a b => ifacePriority a ≤ ifacePriority b) := by
  unfold sortedCandidates
  refine List.pairwise_append.2
    ⟨List.pairwise_append.2
      ⟨pairwise_filter_priority _ 1, pairwise_filter_priority _ 2, ?_⟩,
     pairwise_filter_priority _ 3, ?_⟩
  · intro a ha b hb
    rw [mem_filter_priority ha, mem_filter_priority hb]
    omega
  · intro a ha b hb
    rw [mem_filter_priority hb]
    rcases List.mem_append.1 ha with ha1 | ha2
    · rw [mem_filter_priority ha1]; omega
    · rw [mem_filter_priority ha2]; omega

theorem tryClaim_eq_find (claimOk : USBIfaceSetting → Bool) :
    ∀ l : List USBIfaceSetting, (∀ s ∈ l, hasBulkOut s = true) →
      tryClaim claimOk l =
        (l.find? claimOk).bind
          (fun s => (firstBulkOut s).map (fun ep => (s, ep))) := by
  intro l
  induction l with
  | nil => intro _; rfl
  | cons c rest ih =>
    intro hall
    by_cases hclaim : claimOk c = true
    · have hbo : hasBulkOut c = true := hall c (List.mem_cons_self _ _)
      have hfind : ∃ ep, firstBulkOut c = some ep := by
        rw [hasBulkOut, List.any_eq_true] at hbo
        obtain ⟨ep, hmem, hep⟩ := hbo
        obtain ⟨ep', hep'⟩ :=
          List.find?_isSome.2 ⟨ep, hmem, hep⟩ |> Option.isSome_iff_exists.1
        exact ⟨ep', hep'⟩
      obtain ⟨ep, hep⟩ := hfind
      rw [List.find?_cons_of_pos _ hclaim]
      simp [tryClaim, hclaim, hep]
    · rw [List.find?_cons_of_neg _ hclaim]
      have hrest := ih (fun s hs => hall s (List.mem_cons_of_mem _ hs))
      simp [tryClaim, hclaim, hrest]

/-- C6: USB connection considers as candidates exactly the interfaces with
at least one bulk-OUT endpoint; it tries them in priority order (vendor
class 255 first, other classes next, printer class 7 last); it stops at
the first candidate that claims successfully, resolving that interface
first bulk-OUT endpoint; it fails only when every candidate was exhausted;
and on the simulated device with one class-7 and one class-255 interface,
both with bulk-OUT endpoints, the class-255 interface is claimed first. -/
theorem c6_usb_endpoint_negotiation :
    ∀ (ifaces : List USBIfaceSetting) (claimOk : USBIfaceSetting → Bool),
      (∀ s ∈ sortedCandidates ifaces, hasBulkOut s = true) ∧
      (∀ s ∈ ifaces, hasBulkOut s = true → s ∈ sortedCandidates ifaces) ∧
      (sortedCandidates ifaces).Pairwise
        (fun a b => ifacePriority a ≤ ifacePriority b) ∧
      usbConnect ifaces claimOk =
        ((sortedCandidates ifaces).find? claimOk).bind
          (fun s => (firstBulkOut s).map (fun ep => (s, ep))) ∧
      (usbConnect ifaces claimOk = none ↔
        ∀ s ∈ sortedCandidates ifaces, claimOk s = false) ∧
      usbConnect exDevice (fun _ => true) = some (iface255, epOut255) := by
  intro ifaces claimOk
  have hcand : ∀ s ∈ sortedCandidates ifaces, hasBulkOut s = true :=
    fun s hs => (mem_sortedCandidates.1 hs).2
  have heq := tryClaim_eq_find claimOk (sortedCandidates ifaces) hcand
  refine ⟨hcand, fun s hs hb => mem_sortedCandidates.2 ⟨hs, hb⟩,
    sortedCandidates_pairwise ifaces, heq, ?_, by decide⟩
  rw [usbConnect, heq]
  constructor
  · intro hnone s hs
    cases hfind : (sortedCandidates ifaces).find? claimOk with
    | none =>
      have := List.find?_eq_none.1 hfind s hs
      simpa using this
    | some c =>
      exfalso
      rw [hfind] at hnone
      have hcb : hasBulkOut c = true :=
        hcand c (List.mem_of_find?_eq_some hfind)
      have : ∃ ep, firstBulkOut c = some ep := by
        rw [hasBulkOut, List.any_eq_true] at hcb
        obtain ⟨ep, hmem, hep⟩ := hcb
        obtain ⟨ep', hep'⟩ :=
          List.find?_isSome.2 ⟨ep, hmem, hep⟩ |> Option.isSome_iff_exists.1
        exact ⟨ep', hep'⟩
      obtain ⟨ep, hep⟩ := this
      simp [hep] at hnone
  · intro hall
    have hfind : (sortedCandidates ifaces).find? claimOk = none :=
      List.find?_eq_none.2 (fun s hs => by simp [hall s hs])
    rw [hfind]
    rfl

/-- C6 witness: on the concrete simulated device the vendor-specific
interface wins over the printer-class interface. -/
theorem c6_usb_endpoint_negotiation_witness :
    usbConnect exDevice (fun _ => true) = some (iface255, epOut255) :=
  (c6_usb_endpoint_negotiation [] (fun _ => false)).2.2.2.2.2

end CursorReceipts
